import Mathlib

/-!
Verification of the electron-settings repository: a shallow embedding of
`src/lib/settings.js` and the key-path helper module, together with proofs
about the key-path validation/flattening functions, the codec pipeline, the
configuration merge semantics, and the load-mutate-save cycles of the public
operations.

JavaScript values are embedded as the inductive `JsValue`; machine I/O, the
JSON builtins, the crypto primitives, and the external `key-path-helpers`
npm package are external collaborators and are modelled as injected
capabilities (the `Caps` structure), exactly as the spec treats them.
-/

namespace ElectronSettings

/-- Embedded JavaScript values: the data that flows through the settings
store (documents, key-path arguments, callback arguments). Functions are
opaque (`func`), since the store only ever passes them around or calls them. -/
inductive JsValue where
  | undef : JsValue
  | null : JsValue
  | bool : Bool → JsValue
  | num : Int → JsValue
  | str : String → JsValue
  | arr : List JsValue → JsValue
  | obj : List (String × JsValue) → JsValue
  | func : JsValue
deriving Repr, Inhabited

/-- JavaScript truthiness of an embedded value (`if (x)`); `NaN` is not
representable in this embedding. -/
def jsTruthy : JsValue → Bool
  | .undef => false
  | .null => false
  | .bool b => b
  | .num n => n != 0
  | .str s => s != ""
  | .arr _ => true
  | .obj _ => true
  | .func => true

mutual

/-- String coercion as performed by `Array.prototype.join`: `null` and
`undefined` become the empty string, other values are converted with
`String(...)` (nested arrays join their elements with `,`). -/
def jsToString : JsValue → String
  | .undef => ""
  | .null => ""
  | .bool b => cond b "true" "false"
  | .num n => toString n
  | .str s => s
  | .arr xs => String.intercalate "," (jsToStringList xs)
  | .obj _ => "[object Object]"
  | .func => "function"

/-- Pointwise `jsToString` over the elements of an array. -/
def jsToStringList : List JsValue → List String
  | [] => []
  | x :: xs => jsToString x :: jsToStringList xs

end

mutual

/-- Embedding of `isKeyPath` from the key-path helper module: strings are
key paths; for an array the loop
`for i: if (isKeyPath(keyPath[i]) && i === len - 1) return true` succeeds
only at the last index, so only the final element is required to be valid. -/
def isKeyPath : JsValue → Bool
  | .str _ => true
  | .arr xs => isKeyPathLoop xs
  | _ => false

/-- Embedding of the `for` loop inside `isKeyPath`: the loop body can only
return `true` at the last index, hence iterating from index `i` reduces to
checking the element at the last index. -/
def isKeyPathLoop : List JsValue → Bool
  | [] => false
  | [x] => isKeyPath x
  | _ :: x :: xs => isKeyPathLoop (x :: xs)

end

mutual

/-- Embedding of `flattenKeyPath`: arrays map each element through
`flattenKeyPath` recursively and `.join('.')` the results (coercing each
joined element to a string); every non-array value passes through unchanged. -/
def flattenKeyPath : JsValue → JsValue
  | .arr xs => .str (String.intercalate "." (flattenKeyPathList xs))
  | .undef => .undef
  | .null => .null
  | .bool b => .bool b
  | .num n => .num n
  | .str s => .str s
  | .obj fields => .obj fields
  | .func => .func

/-- The `keyPath.map((a) => flattenKeyPath(a))` part of `flattenKeyPath`,
with the string coercion that `join` applies to each element. -/
def flattenKeyPathList : List JsValue → List String
  | [] => []
  | x :: xs => jsToString (flattenKeyPath x) :: flattenKeyPathList xs

end

/-- The validity of an array key path is decided by its last element alone. -/
theorem isKeyPathLoop_eq_last (xs : List JsValue) :
    isKeyPathLoop xs = (xs.getLast?.map isKeyPath).getD false := by
  induction xs with
  | nil => rfl
  | cons x xs ih =>
    cases xs with
    | nil => rfl
    | cons y ys =>
      rw [isKeyPathLoop, ih, List.getLast?_cons_cons]

/-- Flattening a valid key path always yields a string. -/
theorem flattenKeyPath_of_isKeyPath {v : JsValue} (h : isKeyPath v = true) :
    ∃ t, flattenKeyPath v = .str t := by
  cases v with
  | str s => exact ⟨s, rfl⟩
  | arr xs => exact ⟨_, rfl⟩
  | undef => simp [isKeyPath] at h
  | null => simp [isKeyPath] at h
  | bool b => simp [isKeyPath] at h
  | num n => simp [isKeyPath] at h
  | obj fields => simp [isKeyPath] at h
  | func => simp [isKeyPath] at h

/-- C2: `isKeyPath(value)` returns true iff `value` is a string, or a
non-empty array whose last element recursively satisfies `isKeyPath`;
elements other than the last are never required to be valid, and the empty
array is rejected. -/
theorem isKeyPath_iff_string_or_last_valid (v : JsValue) :
    isKeyPath v = true ↔
      (∃ s, v = .str s) ∨
      (∃ xs x, v = .arr xs ∧ xs.getLast? = some x ∧ isKeyPath x = true) := by
  constructor
  · intro h
    cases v with
    | str s => exact Or.inl ⟨s, rfl⟩
    | arr xs =>
      refine Or.inr ?_
      rw [isKeyPath, isKeyPathLoop_eq_last] at h
      cases hl : xs.getLast? with
      | none => rw [hl] at h; simp at h
      | some x =>
        rw [hl] at h
        exact ⟨xs, x, rfl, hl, h⟩
    | undef => simp [isKeyPath] at h
    | null => simp [isKeyPath] at h
    | bool b => simp [isKeyPath] at h
    | num n => simp [isKeyPath] at h
    | obj fields => simp [isKeyPath] at h
    | func => simp [isKeyPath] at h
  · rintro (⟨s, rfl⟩ | ⟨xs, x, rfl, hl, hx⟩)
    · rfl
    · rw [isKeyPath, isKeyPathLoop_eq_last, hl]
      exact hx

/-- C3 counterexample: `[42, 'foo']` contains the non-string, non-array
element `42`, yet `isKeyPath` accepts it (only the last element is checked),
contradicting the claim that such an array is always rejected. -/
theorem isKeyPath_accepts_invalid_nonfinal_element :
    isKeyPath (.num 42) = false ∧
    isKeyPath (.arr [.num 42, .str "foo"]) = true := ⟨rfl, rfl⟩

/-- C3 amended: an array key path is rejected when it is empty or when its
last element is not a valid key path; invalid elements before the last do
not make the array invalid. -/
theorem isKeyPath_arr_false_of_empty_or_last_invalid (xs : List JsValue)
    (h : xs = [] ∨ ∃ x, xs.getLast? = some x ∧ isKeyPath x = false) :
    isKeyPath (.arr xs) = false := by
  rw [isKeyPath, isKeyPathLoop_eq_last]
  rcases h with rfl | ⟨x, hl, hx⟩
  · rfl
  · rw [hl]
    exact hx

/-- C3 amended, witness: the empty array and `['a', 7]` (last element a
number) are both rejected. -/
theorem isKeyPath_arr_false_witness :
    isKeyPath (.arr ([] : List JsValue)) = false ∧
    isKeyPath (.arr [.str "a", .num 7]) = false := by
  constructor
  · exact isKeyPath_arr_false_of_empty_or_last_invalid [] (Or.inl rfl)
  · exact isKeyPath_arr_false_of_empty_or_last_invalid [.str "a", .num 7]
      (Or.inr ⟨.num 7, rfl, rfl⟩)

/-- C4: `flattenKeyPath` passes strings through unchanged and joins arrays
with `.`; it is idempotent on valid key paths
(`flatten([flatten(x)]) = flatten(x)`) and associative over nesting
(`flatten(['a',['b','c']]) = flatten([['a','b'],'c']) = "a.b.c"`). -/
theorem flattenKeyPath_idempotent_and_assoc :
    (∀ s, flattenKeyPath (.str s) = .str s) ∧
    (∀ v, isKeyPath v = true →
      flattenKeyPath (.arr [flattenKeyPath v]) = flattenKeyPath v) ∧
    flattenKeyPath (.arr [.str "a", .arr [.str "b", .str "c"]]) = .str "a.b.c" ∧
    flattenKeyPath (.arr [.arr [.str "a", .str "b"], .str "c"]) = .str "a.b.c" := by
  refine ⟨fun s => rfl, ?_, rfl, rfl⟩
  intro v hv
  obtain ⟨t, ht⟩ := flattenKeyPath_of_isKeyPath hv
  rw [ht]
  rfl

/-- C4 witness: idempotence of flattening at the concrete key path
`['x', 'y']`. -/
theorem flattenKeyPath_idempotent_witness :
    isKeyPath (.arr [.str "x", .str "y"]) = true ∧
    flattenKeyPath (.arr [flattenKeyPath (.arr [.str "x", .str "y"])]) =
      flattenKeyPath (.arr [.str "x", .str "y"]) := by
  refine ⟨rfl, ?_⟩
  exact flattenKeyPath_idempotent_and_assoc.2.1 (.arr [.str "x", .str "y"]) rfl

/-! ## Configuration -/

/-- The process-wide configuration record of `settings.js` (the module-level
`config` variable). Every field the source reads is present; the injected
Electron handle is folded into the `userDataDir` capability below, since the
source only uses it to resolve the default storage directory. -/
structure Config where
  dir : Option String
  fileName : String
  prettify : Bool
  numSpaces : Nat
  atomicSave : Bool
  encryptionAlgorithm : String
  encryptionKey : Option String
deriving Repr, DecidableEq

/-- Modelled from the spec: the builtin defaults module
(`src/lib/defaults.js`) is required by `settings.js` but is not under
`src/`; its values are taken from the spec's configuration surface —
`fileName "settings.json"`, `prettify false`, `numSpaces 0`,
`atomicSave true`, `encryptionAlgorithm "aes-256-cbc"`, no directory
override and no encryption key. -/
def defaults : Config :=
  ⟨none, "settings.json", false, 0, true, "aes-256-cbc", none⟩

/-- A partial configuration: the `opts` object passed to `configure`. A
`none` field is absent from the object; Object.assign only copies fields
that are present. -/
structure Opts where
  dir : Option (Option String) := none
  fileName : Option String := none
  prettify : Option Bool := none
  numSpaces : Option Nat := none
  atomicSave : Option Bool := none
  encryptionAlgorithm : Option String := none
  encryptionKey : Option (Option String) := none
deriving Repr

/-- Field-wise `Object.assign(target, opts)`: fields present in `opts`
override the target, absent fields leave it unchanged. -/
def assignOpts (c : Config) (o : Opts) : Config :=
  ⟨o.dir.getD c.dir, o.fileName.getD c.fileName, o.prettify.getD c.prettify,
   o.numSpaces.getD c.numSpaces, o.atomicSave.getD c.atomicSave,
   o.encryptionAlgorithm.getD c.encryptionAlgorithm,
   o.encryptionKey.getD c.encryptionKey⟩

/-- `Object.assign({}, defaults, config)` where `config` is a full record:
every field of `defaults` is overridden by the corresponding field of
`config`, so the result is `config`. -/
def assignConfig (_base c : Config) : Config := c

/-- Embedding of `configure(opts)`:
`config = Object.assign({}, defaults, config, opts)`. -/
def configure (c : Config) (o : Opts) : Config :=
  assignOpts (assignConfig defaults c) o

/-- Embedding of `reset()`: `config = Object.assign({}, defaults)`. -/
def resetConfig : Config := assignConfig defaults defaults

/-- One call mutating the module-level configuration. -/
inductive ConfigCall where
  | configureCall : Opts → ConfigCall
  | resetCall : ConfigCall

/-- Run one configuration call against the current configuration. -/
def applyConfigCall (c : Config) : ConfigCall → Config
  | .configureCall o => configure c o
  | .resetCall => resetConfig

/-- Run a sequence of configuration calls from an initial configuration. -/
def runConfigCalls (c : Config) (cs : List ConfigCall) : Config :=
  cs.foldl applyConfigCall c

/-- C7: after any sequence of calls, a further `configure(opts)` replaces
the configuration with the builtin defaults overridden by the pre-call
configuration overridden by `opts`, and a further `reset()` restores exactly
the builtin defaults regardless of prior configure calls. -/
theorem configure_merges_and_reset_restores_defaults
    (c0 : Config) (cs : List ConfigCall) (o : Opts) :
    runConfigCalls c0 (cs ++ [.configureCall o]) =
      assignOpts (assignConfig defaults (runConfigCalls c0 cs)) o ∧
    runConfigCalls c0 (cs ++ [.resetCall]) = defaults := by
  constructor
  · rw [runConfigCalls, List.foldl_append]
    rfl
  · rw [runConfigCalls, List.foldl_append]
    rfl

/-! ## File system, errors and injected capabilities -/

/-- On-disk file content: UTF-8 text, or the opaque byte output of the
cipher. -/
inductive Data where
  | text : String → Data
  | bytes : List Nat → Data
deriving Repr, DecidableEq

/-- A file on disk: readable content, or a file whose `stat` succeeds but
whose read fails (permission error and the like). -/
inductive FileEntry where
  | readable : Data → FileEntry
  | unreadable : FileEntry
deriving Repr, DecidableEq

/-- The file system visible to the store: the set of existing directories
and the files keyed by full path. -/
structure FS where
  dirs : List String
  files : List (String × FileEntry)
deriving Repr, DecidableEq

/-- Update or insert the entry at a path in the file table. -/
def setFileEntry : List (String × FileEntry) → String → FileEntry →
    List (String × FileEntry)
  | [], p, e => [(p, e)]
  | (q, x) :: rest, p, e =>
    if q = p then (p, e) :: rest else (q, x) :: setFileEntry rest p e

/-- The errors a cycle can raise: the synchronous `TypeError` of key-path
validation (and of writing non-string data), file-system errors, decipher
failures, and `JSON.parse` failures. -/
inductive JsErr where
  | typeError : JsErr
  | ioError : JsErr
  | cryptoError : JsErr
  | parseError : JsErr
deriving Repr, DecidableEq

/-- The result of an asynchronous internal step: a value or error to hand to
the completion callback, or an uncaught exception in a callback context. -/
inductive ARes (α : Type) where
  | ok : α → ARes α
  | err : JsErr → ARes α
  | crash : ARes α
deriving Repr, DecidableEq

/-- The observable outcome of an asynchronous public operation: an exception
thrown synchronously from the call itself, a callback completion (value or
error), or an uncaught asynchronous exception. -/
inductive Outcome (α : Type) where
  | thrown : JsErr → Outcome α
  | cbOk : α → Outcome α
  | cbErr : JsErr → Outcome α
  | crash : Outcome α
deriving Repr

/-- The external collaborators of the store, injected as capabilities: the
Electron user-data directory provider, the JSON builtins (`stringify`
returns `none` for undefined, mirroring `JSON.stringify(undefined)`), the
cipher pair (`decrypt` returns `none` when the decipher fails), UTF-8
decoding of raw bytes, and the four traversal operations of the external
`key-path-helpers` npm package. -/
structure Caps where
  userDataDir : String
  stringify : Nat → JsValue → Option String
  parse : String → Option JsValue
  encrypt : String → String → String → List Nat
  decrypt : String → String → Data → Option String
  utf8 : List Nat → String
  kget : JsValue → String → JsValue
  khas : JsValue → String → Bool
  kset : JsValue → String → JsValue → JsValue
  kdel : JsValue → String → JsValue

/-- JavaScript truthiness of `config.encryptionKey` (`undefined` and the
empty string are falsy). -/
def hasEncryption (c : Config) : Bool :=
  match c.encryptionKey with
  | some k => k != ""
  | none => false

/-- The configured encryption key, defaulting to the empty string (only read
when `hasEncryption` holds). -/
def encKey (c : Config) : String := c.encryptionKey.getD ""

/-- Embedding of `getSettingsDirPath`: the configured directory when truthy,
else the injected user-data directory. -/
def getSettingsDirPath (caps : Caps) (c : Config) : String :=
  match c.dir with
  | some d => if d = "" then caps.userDataDir else d
  | none => caps.userDataDir

/-- Embedding of `getSettingsFilePath`: `path.join(dir, config.fileName)`,
modelled as `dir ++ "/" ++ fileName`. -/
def getSettingsFilePath (caps : Caps) (c : Config) : String :=
  getSettingsDirPath caps c ++ "/" ++ c.fileName

/-- The string a key-path argument presents to the key-path-helpers calls
(after flattening it is always a string; other values coerce). -/
def jsStr : JsValue → String
  | .str s => s
  | v => jsToString v

/-- Embedding of `encryptData`: encrypt with the configured algorithm and
key. -/
def encryptData (caps : Caps) (c : Config) (data : String) : List Nat :=
  caps.encrypt c.encryptionAlgorithm (encKey c) data

/-- Embedding of `decryptData`: decipher with the configured algorithm and
key; `none` models the decipher throwing (wrong key or corrupt data). -/
def decryptData (caps : Caps) (c : Config) (buffer : Data) : Option String :=
  caps.decrypt c.encryptionAlgorithm (encKey c) buffer

/-- Embedding of `prepareSettingsData`: stringify with `numSpaces`
indentation when `prettify` is set, then encrypt when a key is configured.
`JSON.stringify` of an unserializable value returns undefined (`none`);
encrypting undefined throws a `TypeError` (`Buffer.from(undefined)`). -/
def prepareSettingsData (caps : Caps) (c : Config) (obj : JsValue) :
    Except JsErr (Option Data) :=
  let numSpaces := if c.prettify then c.numSpaces else 0
  match caps.stringify numSpaces obj with
  | some s =>
    if hasEncryption c then .ok (some (.bytes (encryptData caps c s)))
    else .ok (some (.text s))
  | none =>
    if hasEncryption c then .error .typeError
    else .ok none

/-- Embedding of `reconstructSettingsData`: decrypt when a key is
configured, then `JSON.parse`. -/
def reconstructSettingsData (caps : Caps) (c : Config) (data : Data) :
    Except JsErr JsValue :=
  if hasEncryption c then
    match decryptData caps c data with
    | none => .error .cryptoError
    | some s =>
      match caps.parse s with
      | some v => .ok v
      | none => .error .parseError
  else
    match caps.parse (match data with | .text s => s | .bytes b => caps.utf8 b) with
    | some v => .ok v
    | none => .error .parseError

/-! ## The load-mutate-save pipeline (asynchronous variants) -/

/-- Embedding of `ensureSettingsDir`: `stat` the directory and `mkdirp` it
when absent (directory creation does not fail in this model). -/
def ensureSettingsDir (caps : Caps) (c : Config) (fs : FS) : ARes Unit × FS :=
  let dir := getSettingsDirPath caps c
  if fs.dirs.contains dir then (.ok (), fs)
  else (.ok (), ⟨dir :: fs.dirs, fs.files⟩)

/-- Embedding of `writeSettingsFile`: ensure the directory, then write
atomically or directly according to `config.atomicSave` (both write
strategies produce the same final file system in this crash-free model).
Passing undefined data to the file-system write throws in a callback
context, which is an uncaught exception. -/
def writeSettingsFile (caps : Caps) (c : Config) (data : Option Data)
    (fs : FS) : ARes Unit × FS :=
  let filePath := getSettingsFilePath caps c
  match ensureSettingsDir caps c fs with
  | (.ok _, fs1) =>
    match data with
    | none => (.crash, fs1)
    | some d =>
      if c.atomicSave then
        (.ok (), ⟨fs1.dirs, setFileEntry fs1.files filePath (.readable d)⟩)
      else
        (.ok (), ⟨fs1.dirs, setFileEntry fs1.files filePath (.readable d)⟩)
  | (.err e, fs1) => (.err e, fs1)
  | (.crash, fs1) => (.crash, fs1)

/-- Embedding of `saveSettings`: prepare the data inside a try/catch that
reports the error through the callback, then write. -/
def saveSettings (caps : Caps) (c : Config) (obj : JsValue) (fs : FS) :
    ARes Unit × FS :=
  match prepareSettingsData caps c obj with
  | .error e => (.err e, fs)
  | .ok data => writeSettingsFile caps c data fs

/-- Embedding of `readSettingsFile`: read the file (reporting read errors
through the callback), then reconstruct inside a try/catch. -/
def readSettingsFile (caps : Caps) (c : Config) (fs : FS) :
    ARes JsValue × FS :=
  match fs.files.lookup (getSettingsFilePath caps c) with
  | none => (.err .ioError, fs)
  | some .unreadable => (.err .ioError, fs)
  | some (.readable d) =>
    match reconstructSettingsData caps c d with
    | .ok v => (.ok v, fs)
    | .error e => (.err e, fs)

/-- Embedding of `ensureSettingsFile`: `stat` the file; when absent, save an
empty object to create it. -/
def ensureSettingsFile (caps : Caps) (c : Config) (fs : FS) :
    ARes Unit × FS :=
  match fs.files.lookup (getSettingsFilePath caps c) with
  | some _ => (.ok (), fs)
  | none => saveSettings caps c (.obj []) fs

/-- Embedding of `loadSettings`: ensure the file exists, then read it. -/
def loadSettings (caps : Caps) (c : Config) (fs : FS) : ARes JsValue × FS :=
  match ensureSettingsFile caps c fs with
  | (.ok _, fs1) => readSettingsFile caps c fs1
  | (.err e, fs1) => (.err e, fs1)
  | (.crash, fs1) => (.crash, fs1)

/-- Embedding of `getValueAtKeyPath`: load, then traverse at the key path
when it is truthy, else hand back the whole document. -/
def getValueAtKeyPath (caps : Caps) (c : Config) (keyPath : JsValue)
    (fs : FS) : ARes JsValue × FS :=
  match loadSettings caps c fs with
  | (.ok obj, fs1) =>
    if jsTruthy keyPath then (.ok (caps.kget obj (jsStr keyPath)), fs1)
    else (.ok obj, fs1)
  | (.err e, fs1) => (.err e, fs1)
  | (.crash, fs1) => (.crash, fs1)

/-- Embedding of `hasKeyPath`: load, then check existence at the key path. -/
def hasKeyPath (caps : Caps) (c : Config) (keyPath : JsValue) (fs : FS) :
    ARes Bool × FS :=
  match loadSettings caps c fs with
  | (.ok obj, fs1) => (.ok (caps.khas obj (jsStr keyPath)), fs1)
  | (.err e, fs1) => (.err e, fs1)
  | (.crash, fs1) => (.crash, fs1)

/-- Embedding of `setValueAtKeyPath`: when the key path is truthy, load,
mutate at the key path, and save; when it is falsy, save the value as the
entire document without any load or traversal. -/
def setValueAtKeyPath (caps : Caps) (c : Config) (keyPath val : JsValue)
    (fs : FS) : ARes Unit × FS :=
  if jsTruthy keyPath then
    match loadSettings caps c fs with
    | (.ok obj, fs1) => saveSettings caps c (caps.kset obj (jsStr keyPath) val) fs1
    | (.err e, fs1) => (.err e, fs1)
    | (.crash, fs1) => (.crash, fs1)
  else saveSettings caps c val fs

/-- Embedding of `unsetValueAtKeyPath`: load, delete at the key path, and
save. -/
def unsetValueAtKeyPath (caps : Caps) (c : Config) (keyPath : JsValue)
    (fs : FS) : ARes Unit × FS :=
  match loadSettings caps c fs with
  | (.ok obj, fs1) => saveSettings caps c (caps.kdel obj (jsStr keyPath)) fs1
  | (.err e, fs1) => (.err e, fs1)
  | (.crash, fs1) => (.crash, fs1)

/-! ## The load-mutate-save pipeline (synchronous variants) -/

/-- Embedding of `ensureSettingsDirSync`. -/
def ensureSettingsDirSync (caps : Caps) (c : Config) (fs : FS) :
    Except JsErr Unit × FS :=
  let dir := getSettingsDirPath caps c
  if fs.dirs.contains dir then (.ok (), fs)
  else (.ok (), ⟨dir :: fs.dirs, fs.files⟩)

/-- Embedding of `writeSettingsFileSync`: writing undefined data makes the
synchronous file-system write throw a `TypeError`. -/
def writeSettingsFileSync (caps : Caps) (c : Config) (data : Option Data)
    (fs : FS) : Except JsErr Unit × FS :=
  let filePath := getSettingsFilePath caps c
  match ensureSettingsDirSync caps c fs with
  | (.ok _, fs1) =>
    match data with
    | none => (.error .typeError, fs1)
    | some d =>
      if c.atomicSave then
        (.ok (), ⟨fs1.dirs, setFileEntry fs1.files filePath (.readable d)⟩)
      else
        (.ok (), ⟨fs1.dirs, setFileEntry fs1.files filePath (.readable d)⟩)
  | (.error e, fs1) => (.error e, fs1)

/-- Embedding of `saveSettingsSync` (no try/catch: a prepare failure
propagates as a synchronous throw). -/
def saveSettingsSync (caps : Caps) (c : Config) (obj : JsValue) (fs : FS) :
    Except JsErr Unit × FS :=
  match prepareSettingsData caps c obj with
  | .error e => (.error e, fs)
  | .ok data => writeSettingsFileSync caps c data fs

/-- Embedding of `readSettingsFileSync`. -/
def readSettingsFileSync (caps : Caps) (c : Config) (fs : FS) :
    Except JsErr JsValue × FS :=
  match fs.files.lookup (getSettingsFilePath caps c) with
  | none => (.error .ioError, fs)
  | some .unreadable => (.error .ioError, fs)
  | some (.readable d) =>
    match reconstructSettingsData caps c d with
    | .ok v => (.ok v, fs)
    | .error e => (.error e, fs)

/-- Embedding of `ensureSettingsFileSync`. -/
def ensureSettingsFileSync (caps : Caps) (c : Config) (fs : FS) :
    Except JsErr Unit × FS :=
  match fs.files.lookup (getSettingsFilePath caps c) with
  | some _ => (.ok (), fs)
  | none => saveSettingsSync caps c (.obj []) fs

/-- Embedding of `loadSettingsSync`. -/
def loadSettingsSync (caps : Caps) (c : Config) (fs : FS) :
    Except JsErr JsValue × FS :=
  match ensureSettingsFileSync caps c fs with
  | (.ok _, fs1) => readSettingsFileSync caps c fs1
  | (.error e, fs1) => (.error e, fs1)

/-- Embedding of `getValueAtKeyPathSync`. -/
def getValueAtKeyPathSync (caps : Caps) (c : Config) (keyPath : JsValue)
    (fs : FS) : Except JsErr JsValue × FS :=
  match loadSettingsSync caps c fs with
  | (.ok obj, fs1) =>
    if jsTruthy keyPath then (.ok (caps.kget obj (jsStr keyPath)), fs1)
    else (.ok obj, fs1)
  | (.error e, fs1) => (.error e, fs1)

/-- Embedding of `hasKeyPathSync`. -/
def hasKeyPathSync (caps : Caps) (c : Config) (keyPath : JsValue) (fs : FS) :
    Except JsErr Bool × FS :=
  match loadSettingsSync caps c fs with
  | (.ok obj, fs1) => (.ok (caps.khas obj (jsStr keyPath)), fs1)
  | (.error e, fs1) => (.error e, fs1)

/-- Embedding of `setValueAtKeyPathSync`. -/
def setValueAtKeyPathSync (caps : Caps) (c : Config) (keyPath val : JsValue)
    (fs : FS) : Except JsErr Unit × FS :=
  if jsTruthy keyPath then
    match loadSettingsSync caps c fs with
    | (.ok obj, fs1) => saveSettingsSync caps c (caps.kset obj (jsStr keyPath) val) fs1
    | (.error e, fs1) => (.error e, fs1)
  else saveSettingsSync caps c val fs

/-- Embedding of `unsetValueAtKeyPathSync`. -/
def unsetValueAtKeyPathSync (caps : Caps) (c : Config) (keyPath : JsValue)
    (fs : FS) : Except JsErr Unit × FS :=
  match loadSettingsSync caps c fs with
  | (.ok obj, fs1) => saveSettingsSync caps c (caps.kdel obj (jsStr keyPath)) fs1
  | (.error e, fs1) => (.error e, fs1)

/-! ## Public operations -/

/-- Reading `args[i]` from a JavaScript rest-parameter list: a missing
argument is undefined. -/
def argGet (args : List JsValue) (i : Nat) : JsValue := args.getD i (.undef)

/-- Whether a value can be invoked as a completion callback. -/
def isFunc : JsValue → Bool
  | .func => true
  | _ => false

/-- Each asynchronous cycle invokes its completion callback exactly once, as
its final action; invoking a non-function value there is an uncaught
`TypeError`. -/
def deliver {α : Type} (fn : JsValue) : ARes α → Outcome α
  | .ok a => if isFunc fn then .cbOk a else .crash
  | .err e => if isFunc fn then .cbErr e else .crash
  | .crash => .crash

/-- The argument-splicing prologue shared by `get`/`getSync`/`set`/`setSync`:
a valid first argument is replaced by its flattened form, otherwise a `null`
key path is spliced in FRONT of the existing arguments (shifting them). -/
def spliceArgs (args : List JsValue) : List JsValue :=
  if isKeyPath (argGet args 0) then
    flattenKeyPath (argGet args 0) :: args.drop 1
  else
    .null :: args

/-- Embedding of the public `get(...args)`. -/
def getOp (caps : Caps) (c : Config) (args : List JsValue) (fs : FS) :
    Outcome JsValue × FS :=
  let args := spliceArgs args
  match getValueAtKeyPath caps c (argGet args 0) fs with
  | (r, fs1) => (deliver (argGet args 1) r, fs1)

/-- Embedding of the public `getSync(...args)`. -/
def getSyncOp (caps : Caps) (c : Config) (args : List JsValue) (fs : FS) :
    Except JsErr JsValue × FS :=
  let args := spliceArgs args
  getValueAtKeyPathSync caps c (argGet args 0) fs

/-- Embedding of the public `has(...args)`: an invalid key path throws a
`TypeError` synchronously, before any step of the cycle. -/
def hasOp (caps : Caps) (c : Config) (args : List JsValue) (fs : FS) :
    Outcome Bool × FS :=
  if isKeyPath (argGet args 0) then
    let args := flattenKeyPath (argGet args 0) :: args.drop 1
    match hasKeyPath caps c (argGet args 0) fs with
    | (r, fs1) => (deliver (argGet args 1) r, fs1)
  else (.thrown .typeError, fs)

/-- Embedding of the public `hasSync(...args)`. -/
def hasSyncOp (caps : Caps) (c : Config) (args : List JsValue) (fs : FS) :
    Except JsErr Bool × FS :=
  if isKeyPath (argGet args 0) then
    let args := flattenKeyPath (argGet args 0) :: args.drop 1
    hasKeyPathSync caps c (argGet args 0) fs
  else (.error .typeError, fs)

/-- Embedding of the public `set(...args)`. -/
def setOp (caps : Caps) (c : Config) (args : List JsValue) (fs : FS) :
    Outcome Unit × FS :=
  let args := spliceArgs args
  match setValueAtKeyPath caps c (argGet args 0) (argGet args 1) fs with
  | (r, fs1) => (deliver (argGet args 2) r, fs1)

/-- Embedding of the public `setSync(...args)`. -/
def setSyncOp (caps : Caps) (c : Config) (args : List JsValue) (fs : FS) :
    Except JsErr Unit × FS :=
  let args := spliceArgs args
  setValueAtKeyPathSync caps c (argGet args 0) (argGet args 1) fs

/-- Embedding of the public `unset(...args)`: an invalid key path throws a
`TypeError` synchronously, before any step of the cycle. -/
def unsetOp (caps : Caps) (c : Config) (args : List JsValue) (fs : FS) :
    Outcome Unit × FS :=
  if isKeyPath (argGet args 0) then
    let args := flattenKeyPath (argGet args 0) :: args.drop 1
    match unsetValueAtKeyPath caps c (argGet args 0) fs with
    | (r, fs1) => (deliver (argGet args 1) r, fs1)
  else (.thrown .typeError, fs)

/-- Embedding of the public `unsetSync(...args)`. -/
def unsetSyncOp (caps : Caps) (c : Config) (args : List JsValue) (fs : FS) :
    Except JsErr Unit × FS :=
  if isKeyPath (argGet args 0) then
    let args := flattenKeyPath (argGet args 0) :: args.drop 1
    unsetValueAtKeyPathSync caps c (argGet args 0) fs
  else (.error .typeError, fs)

/-! ## Concrete capability instances for evaluation

Test fixtures standing in for the injected externals on the concrete values
reached by the witnesses and counterexamples: a table-based JSON codec that
is the identity round trip on those values (with `JSON.stringify(undefined)`
returning undefined), a byte-level cipher pair where decryption inverts
encryption, and table-based key-path-helpers traversals. -/

/-- Table-based stand-in for `JSON.stringify` on the concrete documents used
below; `undefined` and other unserializable values give `none`. -/
def wStringify : Nat → JsValue → Option String
  | _, .obj [] => some "\x7b\x7d"
  | _, .num 42 => some "42"
  | _, .obj [("k", .num 1)] => some "\x7b\"k\":1\x7d"
  | _, _ => none

/-- Table-based stand-in for `JSON.parse`, inverse of `wStringify` on its
defined outputs. -/
def wParse : String → Option JsValue
  | "\x7b\x7d" => some (.obj [])
  | "42" => some (.num 42)
  | "\x7b\"k\":1\x7d" => some (.obj [("k", .num 1)])
  | _ => none

/-- Stand-in cipher: code points of the plaintext. -/
def wEncrypt : String → String → String → List Nat :=
  fun _ _ s => s.toList.map Char.toNat

/-- Stand-in decipher, inverse of `wEncrypt`; deciphering text throws. -/
def wDecrypt : String → String → Data → Option String
  | _, _, .bytes b => some (String.mk (b.map Char.ofNat))
  | _, _, .text _ => none

/-- Stand-in UTF-8 decoding of raw bytes. -/
def wUtf8 : List Nat → String :=
  fun b => String.mk (b.map Char.ofNat)

/-- Table-based stand-in for `key-path-helpers`' set: inserting `k` into the
empty document. -/
def wKset : JsValue → String → JsValue → JsValue
  | .obj [], "k", v => .obj [("k", v)]
  | root, _, _ => root

/-- Concrete capability bundle for witnesses and counterexamples. -/
def wCaps : Caps :=
  ⟨"ud", wStringify, wParse, wEncrypt, wDecrypt, wUtf8,
   fun _ _ => .undef, fun _ _ => false, wKset, fun root _ => root⟩

/-- Concrete unencrypted configuration storing under `ud/settings.json`. -/
def cfgPlain : Config :=
  ⟨some "ud", "settings.json", false, 0, true, "aes-256-cbc", none⟩

/-- Concrete encrypted configuration. -/
def cfgEnc : Config :=
  ⟨some "ud", "settings.json", false, 0, true, "aes-256-cbc", some "k"⟩

/-- Concrete file system: the settings file exists and holds the empty
document. -/
def fs0 : FS :=
  ⟨["ud"], [("ud/settings.json", .readable (.text "\x7b\x7d"))]⟩

/-- Concrete file system whose settings file holds text that is not valid
JSON. -/
def fsBad : FS :=
  ⟨["ud"], [("ud/settings.json", .readable (.text "bad"))]⟩

/-! ## Claim theorems about the store -/

/-- C1: for every argument that is not a valid key path, `has`, `hasSync`,
`unset` and `unsetSync` throw a `TypeError` synchronously — before any load,
read or write step and never through the completion callback — and the file
system is untouched. -/
theorem invalid_keypath_throws_synchronously (caps : Caps) (c : Config)
    (args : List JsValue) (fs : FS)
    (h : isKeyPath (argGet args 0) = false) :
    hasOp caps c args fs = (.thrown .typeError, fs) ∧
    hasSyncOp caps c args fs = (.error .typeError, fs) ∧
    unsetOp caps c args fs = (.thrown .typeError, fs) ∧
    unsetSyncOp caps c args fs = (.error .typeError, fs) := by
  refine ⟨?_, ?_, ?_, ?_⟩ <;>
    simp [hasOp, hasSyncOp, unsetOp, unsetSyncOp, h]

/-- C1 witness: calling the four operations with the number `7` as key path
throws a `TypeError` and leaves the concrete file system unchanged. -/
theorem invalid_keypath_throws_synchronously_witness :
    isKeyPath (argGet [.num 7, .func] 0) = false ∧
    hasOp wCaps cfgPlain [.num 7, .func] fs0 = (.thrown .typeError, fs0) ∧
    hasSyncOp wCaps cfgPlain [.num 7, .func] fs0 = (.error .typeError, fs0) ∧
    unsetOp wCaps cfgPlain [.num 7, .func] fs0 = (.thrown .typeError, fs0) ∧
    unsetSyncOp wCaps cfgPlain [.num 7, .func] fs0 = (.error .typeError, fs0) := by
  have h := invalid_keypath_throws_synchronously wCaps cfgPlain [.num 7, .func] fs0 rfl
  exact ⟨rfl, h.1, h.2.1, h.2.2.1, h.2.2.2⟩

/-- With a falsy key path, the synchronous get hands back whatever the load
produced, performing no traversal; the key path value itself is irrelevant. -/
theorem getValueAtKeyPathSync_falsy (caps : Caps) (c : Config) (fs : FS)
    (kp kp' : JsValue) (h : jsTruthy kp = false) (h' : jsTruthy kp' = false) :
    getValueAtKeyPathSync caps c kp fs = getValueAtKeyPathSync caps c kp' fs := by
  unfold getValueAtKeyPathSync
  cases hls : loadSettingsSync caps c fs with
  | mk r fs1 => cases r <;> simp [h, h']

/-- Asynchronous version of `getValueAtKeyPathSync_falsy`. -/
theorem getValueAtKeyPath_falsy (caps : Caps) (c : Config) (fs : FS)
    (kp kp' : JsValue) (h : jsTruthy kp = false) (h' : jsTruthy kp' = false) :
    getValueAtKeyPath caps c kp fs = getValueAtKeyPath caps c kp' fs := by
  unfold getValueAtKeyPath
  cases hls : loadSettings caps c fs with
  | mk r fs1 => cases r <;> simp [h, h']

/-- C10: the empty string is a valid key path treated identically to an
omitted one: `get('')`/`getSync('')` return the entire settings document
(not the value stored under the key `''`), and `set('', v)`/`setSync('', v)`
replace the entire document with `v`, because the store tests the flattened
path for truthiness. -/
theorem empty_string_keypath_acts_as_omitted (caps : Caps) (c : Config)
    (v : JsValue) (fs fs1 : FS) (obj : JsValue)
    (hload : loadSettingsSync caps c fs = (.ok obj, fs1)) :
    isKeyPath (.str "") = true ∧
    getSyncOp caps c [.str ""] fs = (.ok obj, fs1) ∧
    getSyncOp caps c [.str ""] fs = getSyncOp caps c [] fs ∧
    getOp caps c [.str "", .func] fs = getOp caps c [.func] fs ∧
    setSyncOp caps c [.str "", v] fs = saveSettingsSync caps c v fs ∧
    (setOp caps c [.str "", v, .func] fs).1 =
      deliver .func (saveSettings caps c v fs).1 ∧
    (setOp caps c [.str "", v, .func] fs).2 = (saveSettings caps c v fs).2 := by
  refine ⟨rfl, ?_, ?_, ?_, ?_, ?_, ?_⟩
  · show getValueAtKeyPathSync caps c (.str "") fs = (.ok obj, fs1)
    unfold getValueAtKeyPathSync
    rw [hload]
    rfl
  · exact getValueAtKeyPathSync_falsy caps c fs (.str "") .null rfl rfl
  · show (match getValueAtKeyPath caps c (.str "") fs with
      | (r, fs1) => (deliver .func r, fs1)) =
      (match getValueAtKeyPath caps c .null fs with
      | (r, fs1) => (deliver .func r, fs1))
    rw [getValueAtKeyPath_falsy caps c fs (.str "") .null rfl rfl]
  · rfl
  · show (deliver .func (setValueAtKeyPath caps c (.str "") v fs).1 : Outcome Unit) =
      deliver .func (saveSettings caps c v fs).1
    rfl
  · rfl

/-- C10 witness: on the concrete store, an empty-string key path behaves as
an omitted one for both reads and writes. -/
theorem empty_string_keypath_acts_as_omitted_witness :
    loadSettingsSync wCaps cfgPlain fs0 = (.ok (.obj []), fs0) ∧
    getSyncOp wCaps cfgPlain [.str ""] fs0 = (.ok (.obj []), fs0) ∧
    getSyncOp wCaps cfgPlain [.str ""] fs0 = getSyncOp wCaps cfgPlain [] fs0 ∧
    setSyncOp wCaps cfgPlain [.str "", .num 42] fs0 =
      saveSettingsSync wCaps cfgPlain (.num 42) fs0 := by
  have h := empty_string_keypath_acts_as_omitted wCaps cfgPlain (.num 42)
    fs0 fs0 (.obj []) rfl
  exact ⟨rfl, h.2.1, h.2.2.1, h.2.2.2.2.1⟩

/-- C8: when the settings file exists but the load step of a `set` or
`unset` cycle fails (unreadable file, decryption failure, or JSON parse
failure), the operation surfaces that error — through the callback for the
asynchronous variants, as a throw for the synchronous ones — performs no
mutation and never reaches the write step: the file system is exactly as it
was. -/
theorem load_failure_aborts_cycle (caps : Caps) (c : Config)
    (kp val : JsValue) (fs : FS) (e : JsErr)
    (hkp : jsTruthy kp = true)
    (hfail :
      (fs.files.lookup (getSettingsFilePath caps c) = some .unreadable ∧
        e = .ioError) ∨
      (∃ d, fs.files.lookup (getSettingsFilePath caps c) = some (.readable d) ∧
        reconstructSettingsData caps c d = .error e)) :
    setValueAtKeyPath caps c kp val fs = (.err e, fs) ∧
    unsetValueAtKeyPath caps c kp fs = (.err e, fs) ∧
    setValueAtKeyPathSync caps c kp val fs = (.error e, fs) ∧
    unsetValueAtKeyPathSync caps c kp fs = (.error e, fs) := by
  have hload : loadSettings caps c fs = (.err e, fs) := by
    rcases hfail with ⟨hlook, rfl⟩ | ⟨d, hlook, hrec⟩
    · simp [loadSettings, ensureSettingsFile, readSettingsFile, hlook]
    · simp [loadSettings, ensureSettingsFile, readSettingsFile, hlook, hrec]
  have hloadS : loadSettingsSync caps c fs = (.error e, fs) := by
    rcases hfail with ⟨hlook, rfl⟩ | ⟨d, hlook, hrec⟩
    · simp [loadSettingsSync, ensureSettingsFileSync, readSettingsFileSync, hlook]
    · simp [loadSettingsSync, ensureSettingsFileSync, readSettingsFileSync,
        hlook, hrec]
  refine ⟨?_, ?_, ?_, ?_⟩
  · simp [setValueAtKeyPath, hkp, hload]
  · simp [unsetValueAtKeyPath, hload]
  · simp [setValueAtKeyPathSync, hkp, hloadS]
  · simp [unsetValueAtKeyPathSync, hloadS]

/-- C8 witness: with the settings file holding text that is not JSON, the
four cycle functions surface a parse error at key path `"k"` and leave the
concrete file system unchanged. -/
theorem load_failure_aborts_cycle_witness :
    jsTruthy (.str "k") = true ∧
    reconstructSettingsData wCaps cfgPlain (.text "bad") = .error .parseError ∧
    setValueAtKeyPath wCaps cfgPlain (.str "k") (.num 1) fsBad =
      (.err .parseError, fsBad) ∧
    unsetValueAtKeyPath wCaps cfgPlain (.str "k") fsBad =
      (.err .parseError, fsBad) ∧
    setValueAtKeyPathSync wCaps cfgPlain (.str "k") (.num 1) fsBad =
      (.error .parseError, fsBad) ∧
    unsetValueAtKeyPathSync wCaps cfgPlain (.str "k") fsBad =
      (.error .parseError, fsBad) := by
  have h := load_failure_aborts_cycle wCaps cfgPlain (.str "k") (.num 1)
    fsBad .parseError rfl (Or.inr ⟨.text "bad", rfl, rfl⟩)
  exact ⟨rfl, rfl, h.1, h.2.1, h.2.2.1, h.2.2.2⟩

/-- C6: whenever the JSON builtins round-trip the document at the
configured indentation and the injected decipher inverts the cipher for the
configured algorithm and key, `reconstructSettingsData` recovers exactly the
document that `prepareSettingsData` encoded, under the same configuration. -/
theorem prepare_reconstruct_roundtrip (caps : Caps) (c : Config)
    (d : JsValue) (s : String)
    (hs : caps.stringify (if c.prettify then c.numSpaces else 0) d = some s)
    (hp : caps.parse s = some d)
    (hd : caps.decrypt c.encryptionAlgorithm (encKey c)
      (.bytes (caps.encrypt c.encryptionAlgorithm (encKey c) s)) = some s) :
    ∃ dd, prepareSettingsData caps c d = .ok (some dd) ∧
      reconstructSettingsData caps c dd = .ok d := by
  by_cases he : hasEncryption c = true
  · refine ⟨.bytes (encryptData caps c s), ?_, ?_⟩
    · simp [prepareSettingsData, hs, he]
    · simp [reconstructSettingsData, he, decryptData, encryptData, hd, hp]
  · refine ⟨.text s, ?_, ?_⟩
    · simp [prepareSettingsData, hs, he]
    · simp [reconstructSettingsData, he, hp]

/-- C6 witness: with encryption configured, the empty document round-trips
through the concrete codec and cipher fixtures. -/
theorem prepare_reconstruct_roundtrip_witness :
    wCaps.stringify (if cfgEnc.prettify then cfgEnc.numSpaces else 0)
      (.obj []) = some "\x7b\x7d" ∧
    wCaps.parse "\x7b\x7d" = some (.obj []) ∧
    wCaps.decrypt cfgEnc.encryptionAlgorithm (encKey cfgEnc)
      (.bytes (wCaps.encrypt cfgEnc.encryptionAlgorithm (encKey cfgEnc)
        "\x7b\x7d")) = some "\x7b\x7d" ∧
    (∃ dd, prepareSettingsData wCaps cfgEnc (.obj []) = .ok (some dd) ∧
      reconstructSettingsData wCaps cfgEnc dd = .ok (.obj [])) := by
  refine ⟨rfl, rfl, rfl, ?_⟩
  exact prepare_reconstruct_roundtrip wCaps cfgEnc (.obj []) "\x7b\x7d"
    rfl rfl rfl

/-- C5 counterexample: at the claim's own input, `setSync(undefined, {a:1})`
does not store `{a:1}`. Because the first argument is not a valid key path,
`splice(0, 0, null)` inserts `null` in front without removing it, so the
value position is taken by `undefined`; `JSON.stringify(undefined)` is
undefined and the file-system write throws a `TypeError`, leaving the
document the empty object, which differs from `{a:1}`. -/
theorem set_undefined_shifts_arguments_cex :
    setSyncOp wCaps cfgPlain [.undef, .obj [("a", .num 1)]] fs0 =
      (.error .typeError, fs0) ∧
    getSyncOp wCaps cfgPlain []
      (setSyncOp wCaps cfgPlain [.undef, .obj [("a", .num 1)]] fs0).2 =
      (.ok (.obj []), fs0) ∧
    JsValue.obj [] ≠ JsValue.obj [("a", .num 1)] := by
  refine ⟨rfl, rfl, ?_⟩
  simp

/-- C5 amended: with an omitted or invalid key-path argument, `get` and
`getSync` return the entire stored document with no traversal; `set` and
`setSync` splice a `null` key path in front of the existing arguments, so
the call's FIRST argument — not its second — is written as the entire
document (`set(v)` stores `v`; `set(undefined, {a:1})` attempts to store
`undefined` and fails, see the counterexample). -/
theorem omitted_keypath_addresses_whole_document (caps : Caps) (c : Config)
    (fs fs1 : FS) (obj v : JsValue) (rest args : List JsValue)
    (hload : loadSettingsSync caps c fs = (.ok obj, fs1))
    (hargs : isKeyPath (argGet args 0) = false)
    (hv : isKeyPath v = false) :
    getSyncOp caps c args fs = (.ok obj, fs1) ∧
    (getOp caps c [.func] fs).1 = deliver .func (loadSettings caps c fs).1 ∧
    (getOp caps c [.func] fs).2 = (loadSettings caps c fs).2 ∧
    setSyncOp caps c (v :: rest) fs = saveSettingsSync caps c v fs ∧
    (setOp caps c [v, .func] fs).1 =
      deliver .func (saveSettings caps c v fs).1 ∧
    (setOp caps c [v, .func] fs).2 = (saveSettings caps c v fs).2 := by
  have hnull : getValueAtKeyPath caps c .null fs = loadSettings caps c fs := by
    unfold getValueAtKeyPath
    cases hls : loadSettings caps c fs with
    | mk r fs2 => cases r <;> simp [jsTruthy]
  refine ⟨?_, ?_, ?_, ?_, ?_, ?_⟩
  · have hsp : spliceArgs args = .null :: args := by
      simp [spliceArgs, hargs]
    show getValueAtKeyPathSync caps c (argGet (spliceArgs args) 0) fs =
      (.ok obj, fs1)
    rw [hsp]
    show getValueAtKeyPathSync caps c .null fs = (.ok obj, fs1)
    unfold getValueAtKeyPathSync
    rw [hload]
    rfl
  · show (match getValueAtKeyPath caps c .null fs with
      | (r, fs2) => (deliver JsValue.func r, fs2)).1 = _
    rw [hnull]
  · show (match getValueAtKeyPath caps c .null fs with
      | (r, fs2) => (deliver JsValue.func r, fs2)).2 = _
    rw [hnull]
  · have hsp : spliceArgs (v :: rest) = .null :: v :: rest := by
      simp [spliceArgs, argGet, hv]
    show setValueAtKeyPathSync caps c (argGet (spliceArgs (v :: rest)) 0)
      (argGet (spliceArgs (v :: rest)) 1) fs = _
    rw [hsp]
    rfl
  · have hsp : spliceArgs [v, .func] = [.null, v, .func] := by
      simp [spliceArgs, argGet, hv]
    show (match setValueAtKeyPath caps c (argGet (spliceArgs [v, .func]) 0)
        (argGet (spliceArgs [v, .func]) 1) fs with
      | (r, fs2) => (deliver (argGet (spliceArgs [v, .func]) 2) r, fs2)).1 = _
    rw [hsp]
    show (match saveSettings caps c v fs with
      | (r, fs2) => (deliver JsValue.func r, fs2)).1 = _
    cases hsv : saveSettings caps c v fs with
    | mk r fs2 => rfl
  · have hsp : spliceArgs [v, .func] = [.null, v, .func] := by
      simp [spliceArgs, argGet, hv]
    show (match setValueAtKeyPath caps c (argGet (spliceArgs [v, .func]) 0)
        (argGet (spliceArgs [v, .func]) 1) fs with
      | (r, fs2) => (deliver (argGet (spliceArgs [v, .func]) 2) r, fs2)).2 = _
    rw [hsp]
    show (match saveSettings caps c v fs with
      | (r, fs2) => (deliver JsValue.func r, fs2)).2 = _
    cases hsv : saveSettings caps c v fs with
    | mk r fs2 => rfl

/-- C5 amended, witness: `getSync()` returns the stored empty document and
`setSync(42)` stores `42` as the whole document. -/
theorem omitted_keypath_addresses_whole_document_witness :
    loadSettingsSync wCaps cfgPlain fs0 = (.ok (.obj []), fs0) ∧
    isKeyPath (argGet ([] : List JsValue) 0) = false ∧
    isKeyPath (.num 42) = false ∧
    getSyncOp wCaps cfgPlain [] fs0 = (.ok (.obj []), fs0) ∧
    setSyncOp wCaps cfgPlain [.num 42] fs0 =
      saveSettingsSync wCaps cfgPlain (.num 42) fs0 := by
  have h := omitted_keypath_addresses_whole_document wCaps cfgPlain fs0 fs0
    (.obj []) (.num 42) [] [] rfl rfl rfl
  exact ⟨rfl, rfl, rfl, h.1, h.2.2.2.1⟩

/-! ## Mid-cycle configuration changes -/

/-- Models the source's asynchronous `setValueAtKeyPath` when a
`configure()` call runs on the event loop between the load callback and the
save: every source function reads the module-global `config` at its own
execution time, so the load phase observes `cLoad` while the save phase
observes `cSave`. With `cLoad = cSave` this is exactly
`setValueAtKeyPath`. -/
def setValueAtKeyPathPhased (caps : Caps) (cLoad cSave : Config)
    (keyPath val : JsValue) (fs : FS) : ARes Unit × FS :=
  if jsTruthy keyPath then
    match loadSettings caps cLoad fs with
    | (.ok obj, fs1) =>
      saveSettings caps cSave (caps.kset obj (jsStr keyPath) val) fs1
    | (.err e, fs1) => (.err e, fs1)
    | (.crash, fs1) => (.crash, fs1)
  else saveSettings caps cSave val fs

/-- Configuration whose settings file is `ud/a.json`. -/
def cA : Config := ⟨some "ud", "a.json", false, 0, true, "aes-256-cbc", none⟩

/-- Configuration whose settings file is `ud/b.json`. -/
def cB : Config := ⟨some "ud", "b.json", false, 0, true, "aes-256-cbc", none⟩

/-- File system holding the empty document under `ud/a.json`. -/
def fsAB : FS := ⟨["ud"], [("ud/a.json", .readable (.text "\x7b\x7d"))]⟩

/-- C9 counterexample: an async `set` cycle that loads while the
configuration names `a.json` and saves after a mid-cycle `configure` switched
the file name to `b.json` writes `b.json` and leaves `a.json` unchanged —
the mid-cycle configure IS observed, so the configuration is not snapshotted
once at the start of the cycle. -/
theorem config_not_snapshotted_cex :
    cA.fileName ≠ cB.fileName ∧
    setValueAtKeyPathPhased wCaps cA cB (.str "k") (.num 1) fsAB =
      (.ok (), ⟨["ud"], [("ud/a.json", .readable (.text "\x7b\x7d")),
        ("ud/b.json", .readable (.text "\x7b\"k\":1\x7d"))]⟩) ∧
    setValueAtKeyPath wCaps cA (.str "k") (.num 1) fsAB =
      (.ok (), ⟨["ud"], [("ud/a.json", .readable (.text "\x7b\"k\":1\x7d"))]⟩) ∧
    setValueAtKeyPathPhased wCaps cA cB (.str "k") (.num 1) fsAB ≠
      setValueAtKeyPath wCaps cA (.str "k") (.num 1) fsAB := by
  refine ⟨?_, rfl, rfl, ?_⟩ <;> decide

/-- C9 amended: the configuration is re-read by each step of the cycle
rather than snapshotted once at entry: the load phase uses the
configuration current at load time and the save phase the configuration
current at save time, so a `configure` call issued between the load and the
save of an in-flight asynchronous cycle is observed by the save; only when
no mid-cycle configure occurs does the cycle behave as a single-
configuration `setValueAtKeyPath`. -/
theorem config_read_at_each_step (caps : Caps) (cL cS : Config)
    (kp val obj : JsValue) (fs fs1 : FS)
    (hkp : jsTruthy kp = true)
    (hload : loadSettings caps cL fs = (.ok obj, fs1)) :
    setValueAtKeyPathPhased caps cL cS kp val fs =
      saveSettings caps cS (caps.kset obj (jsStr kp) val) fs1 ∧
    setValueAtKeyPathPhased caps cL cL kp val fs =
      setValueAtKeyPath caps cL kp val fs := by
  constructor
  · simp [setValueAtKeyPathPhased, hkp, hload]
  · rfl

/-- C9 amended, witness: the phased cycle at the concrete configurations
saves under the save-time configuration. -/
theorem config_read_at_each_step_witness :
    jsTruthy (.str "k") = true ∧
    loadSettings wCaps cA fsAB = (.ok (.obj []), fsAB) ∧
    setValueAtKeyPathPhased wCaps cA cB (.str "k") (.num 1) fsAB =
      saveSettings wCaps cB (wCaps.kset (.obj []) (jsStr (.str "k")) (.num 1))
        fsAB := by
  have h := config_read_at_each_step wCaps cA cB (.str "k") (.num 1)
    (.obj []) fsAB fsAB rfl rfl
  exact ⟨rfl, rfl, h.1⟩

end ElectronSettings
